import Mathlib

/-!
Verification of the EDA pipeline (utils.py, models.py, eda.py) as a shallow
embedding.  Cells of a pandas DataFrame are modelled by `Val` (a missing
marker NaN/None, a numeric value as an exact rational, or a string); a
DataFrame is a list of named columns.  Python floats are modelled as exact
rationals; exceptions are modelled explicitly where a claim depends on them.
-/

/-! ## Data model -/

/-- A cell of a DataFrame: missing (NaN/None), numeric, or string. -/
inductive Val where
  | na : Val
  | num : ℚ → Val
  | str : String → Val
deriving DecidableEq, Repr

/-- `pd.isna` on a cell. -/
def Val.isNa : Val → Bool
  | .na => true
  | _ => false

/-- The numeric content of a cell, if any. -/
def Val.toNum? : Val → Option ℚ
  | .num q => some q
  | _ => none

/-- A cell is numeric or missing (the shape of a coerced column). -/
def Val.isNumOrNa : Val → Bool
  | .str _ => false
  | _ => true

/-- A DataFrame: a list of (column name, cell list) pairs. -/
abbrev Table : Type := List (String × List Val)

/-- `c in df.columns`. -/
def hasCol (t : Table) (n : String) : Bool :=
  t.any (fun p => p.1 == n)

/-- `df[c]` (the empty column if absent). -/
def getCol : Table → String → List Val
  | [], _ => []
  | p :: t, n => if p.1 = n then p.2 else getCol t n

/-- `df[c] = vs`: replace the column in place if present, else append it. -/
def setCol : Table → String → List Val → Table
  | [], n, vs => [(n, vs)]
  | p :: t, n, vs =>
      if p.1 = n then (p.1, vs) :: t else p :: setCol t n vs

/-- `df.drop(columns=[n])`. -/
def dropCol (t : Table) (n : String) : Table :=
  t.filter (fun p => p.1 ≠ n)

/-- The column names of the table. -/
def colNames (t : Table) : List String :=
  t.map Prod.fst

/-- The number of rows (length of the first column; 0 for a columnless table). -/
def nrows : Table → Nat
  | [] => 0
  | (_, ws) :: _ => ws.length

/-! ## utils.dry_wet_from_month -/

/-- Python `int()` on a float truncates toward zero; on the rational
`num/den` (with `den > 0`) that is truncating integer division. -/
def truncInt (q : ℚ) : ℤ :=
  q.num.tdiv q.den

/-- utils.dry_wet_from_month: month → season label.  The argument is the
numeric content of the cell (`none` when `pd.isna(m)` holds). -/
def dry_wet_from_month (m : Option ℚ) : Option String :=
  match m with
  | none => none
  | some q =>
      let k := truncInt q
      if k ∈ ([11, 12, 1, 2, 3, 4] : List ℤ) then some "Wet"
      else if k ∈ ([5, 6, 7, 8, 9, 10] : List ℤ) then some "Dry"
      else none

/-! ## utils.coerce_numeric

`pd.to_numeric(col, errors="coerce")` parses each entry; entries that do not
parse become NaN.  The per-entry parser is modelled for sign + decimal
notation over exact rationals (Python floats are modelled as rationals);
surrounding whitespace is skipped as the pandas parser does. -/

/-- The value of a list of decimal digits. -/
def digitsToNat (cs : List Char) : Nat :=
  cs.foldl (fun a c => a * 10 + (c.toNat - 48)) 0

/-- Parse an unsigned decimal literal: `digits`, `digits.digits`,
`digits.` or `.digits` (at least one digit overall). -/
def parseUnsigned (cs : List Char) : Option ℚ :=
  let intPart := cs.takeWhile (fun c => c ≠ '.')
  let rest := cs.dropWhile (fun c => c ≠ '.')
  match rest with
  | [] =>
      if !intPart.isEmpty && intPart.all Char.isDigit then
        some (mkRat (digitsToNat intPart) 1)
      else none
  | _ :: frac =>
      if (!intPart.isEmpty || !frac.isEmpty) && intPart.all Char.isDigit
          && frac.all Char.isDigit then
        some (mkRat (digitsToNat intPart * 10 ^ frac.length + digitsToNat frac)
          (10 ^ frac.length))
      else none

/-- Python `str.strip` (also the whitespace skipping of the numeric parser),
modelled directly over the character list. -/
def pyStrip (s : String) : String :=
  ⟨((s.data.dropWhile Char.isWhitespace).reverse.dropWhile
      Char.isWhitespace).reverse⟩

/-- Python `str.lower`, modelled directly over the character list. -/
def pyLower (s : String) : String :=
  ⟨s.data.map Char.toLower⟩

/-- An optionally signed decimal literal, whitespace already stripped. -/
def parseNumeric (s : String) : Option ℚ :=
  match s.data with
  | [] => none
  | c :: cs =>
      if c = '-' then (parseUnsigned cs).map (fun q => -q)
      else if c = '+' then parseUnsigned cs
      else parseUnsigned (c :: cs)

/-- One cell under `pd.to_numeric(..., errors="coerce")`: numbers and NaN
pass through, strings parse or become NaN. -/
def coerceCell : Val → Val
  | .na => .na
  | .num q => .num q
  | .str s =>
      match parseNumeric (pyStrip s) with
      | some q => .num q
      | none => .na

/-- utils.coerce_numeric: convert each listed column that is present to
numeric, leaving the table otherwise unchanged. -/
def coerce_numeric (df : Table) (cols : List String) : Table :=
  cols.foldl
    (fun t c =>
      if hasCol t c then setCol t c ((getCol t c).map coerceCell) else t)
    df

/-! ## utils.standardise_dataset1

The function is decomposed into its four source blocks: numeric coercion,
the season-column mapping into `season_dw`, the month-derived override of
`season_dw`, and the rename of `season_dw` to `season`. -/

/-- The column list passed to coerce_numeric by standardise_dataset1. -/
def d1CoerceCols : List String :=
  ["risk", "reward", "seconds_after_rat_arrival", "hours_after_sunset",
    "month"]

/-- The dict `{"0": "Dry", "1": "Wet", "dry": "Dry", "wet": "Wet"}`. -/
def seasonDict : List (String × String) :=
  [("0", "Dry"), ("1", "Wet"), ("dry", "Dry"), ("wet", "Wet")]

/-- `Series.map` with the dict: keys not in the dict map to missing. -/
def seasonMap (s : String) : Val :=
  match seasonDict.lookup s with
  | some r => .str r
  | none => .na

/-- `astype(str)` on a cell: NaN prints "nan"; a whole number prints with no
decimal point (int64 column), other rationals as `num/den` text.  Only
whether the result is one of the dict keys matters downstream. -/
def valToStr : Val → String
  | .na => "nan"
  | .str s => s
  | .num q => if q.den = 1 then toString q.num else toString q

/-- A month-derived label as a cell ("Wet"/"Dry"/None). -/
def optToVal : Option String → Val
  | some s => .str s
  | none => .na

/-- Source block: if a season column exists, map its lowered/stripped text
through the dict into `season_dw`; otherwise `df["season_dw"] = None`. -/
def seasonStep (df : Table) : Table :=
  if hasCol df "season" then
    setCol df "season_dw"
      ((getCol df "season").map
        (fun v => seasonMap (pyStrip (pyLower (valToStr v)))))
  else setCol df "season_dw" (List.replicate (nrows df) Val.na)

/-- Source block: if a month column exists, derive `dw` from it and keep
`dw` wherever it is non-missing, falling back to `season_dw`
(`dw.where(dw.notna(), df["season_dw"])`). -/
def monthStep (df : Table) : Table :=
  if hasCol df "month" then
    setCol df "season_dw"
      (List.zipWith (fun d f => if d.isNa then f else d)
        ((getCol df "month").map
          (fun v => optToVal (dry_wet_from_month v.toNum?)))
        (getCol df "season_dw"))
  else df

/-- Source block: `df["season"] = df["season_dw"]` and drop `season_dw`. -/
def finalizeSeason (df : Table) : Table :=
  dropCol (setCol df "season" (getCol df "season_dw")) "season_dw"

/-- utils.standardise_dataset1 as the composition of its four blocks. -/
def standardise_dataset1 (df : Table) : Table :=
  finalizeSeason (monthStep (seasonStep (coerce_numeric df d1CoerceCols)))

/-- The season-column-derived value (spec step 1): the existing season
column lowered, stripped and mapped through the dict.  The season column is
not numerically coerced, so this reads the raw column. -/
def seasonColDerived (df : Table) : List Val :=
  (getCol df "season").map (fun v => seasonMap (pyStrip (pyLower (valToStr v))))

/-- The month-derived value (spec step 2): the coerced month column mapped
through dry_wet_from_month. -/
def monthDerived (df : Table) : List Val :=
  (getCol (coerce_numeric df d1CoerceCols) "month").map
    (fun v => optToVal (dry_wet_from_month v.toNum?))

/-! ## eda.run_all: test selection and the chi-square input handling -/

/-- `series.fillna(v)` with a numeric fill value. -/
def fillna (q : ℚ) (xs : List Val) : List Val :=
  xs.map (fun v => if v.isNa then Val.num q else v)

/-- The observation pairs `pd.crosstab` keeps: pairs where neither entry is
missing (pandas drops a row when either side is NaN). -/
def validPairs (a b : List Val) : List (Val × Val) :=
  (a.zip b).filter (fun p => !p.1.isNa && !p.2.isNa)

/-- One cell of the contingency table: how many kept pairs fall in
category pair (r, c). -/
def ctCell (a b : List Val) (r c : Val) : Nat :=
  (validPairs a b).countP (fun p => p.1 == r && p.2 == c)

/-- The row categories of the contingency table. -/
def rowCats (a b : List Val) : Finset Val :=
  ((validPairs a b).map Prod.fst).toFinset

/-- The column categories of the contingency table. -/
def colCats (a b : List Val) : Finset Val :=
  ((validPairs a b).map Prod.snd).toFinset

/-- The sum of all cells of the contingency table (equivalently, of its row
or column totals). -/
def ctGrandTotal (a b : List Val) : Nat :=
  ∑ r ∈ rowCats a b, ∑ c ∈ colCats a b, ctCell a b r c

/-- The group keys of `df.groupby(col)`: pandas drops missing keys. -/
def groupKeys (keys : List Val) : List Val :=
  (keys.filter (fun v => !v.isNa)).dedup

/-- `d1.loc[d1["risk"] == 0, "seconds_after_rat_arrival"].dropna()`. -/
def mwGroupA (d1 : Table) : List Val :=
  ((((getCol d1 "risk").zip (getCol d1 "seconds_after_rat_arrival")).filter
    (fun p => p.1 == Val.num 0)).map Prod.snd).filter (fun v => !v.isNa)

/-- `d1.loc[d1["risk"] == 1, "seconds_after_rat_arrival"].dropna()`. -/
def mwGroupB (d1 : Table) : List Val :=
  ((((getCol d1 "risk").zip (getCol d1 "seconds_after_rat_arrival")).filter
    (fun p => p.1 == Val.num 1)).map Prod.snd).filter (fun v => !v.isNa)

/-- `[g.dropna() for _, g in d2.groupby(d2["month"])["rat_arrival_number"]]`. -/
def kruskalGroups (d2 : Table) : List (List Val) :=
  (groupKeys (getCol d2 "month")).map (fun k =>
    ((((getCol d2 "month").zip (getCol d2 "rat_arrival_number")).filter
      (fun p => p.1 == k)).map Prod.snd).filter (fun v => !v.isNa))

/-- The keys of `results["tests"]` produced by eda.run_all, mirroring its
three conditionals (the statistic computations themselves are scipy
library calls and do not affect which keys appear). -/
def testKeys (d1 d2 : Table) : List String :=
  (if hasCol d1 "risk" && hasCol d1 "reward" then
    ["risk_vs_reward_chi2"] else []) ++
  (if hasCol d1 "risk" && hasCol d1 "seconds_after_rat_arrival" then
    (if 3 < (mwGroupA d1).length && 3 < (mwGroupB d1).length then
      ["sec_after_rat_by_risk_mw"] else [])
  else []) ++
  (if hasCol d2 "month" && hasCol d2 "rat_arrival_number" then
    (if 1 < (kruskalGroups d2).length
        && (kruskalGroups d2).all (fun g => 2 < g.length) then
      ["rat_arrivals_kruskal_by_month"] else [])
  else [])

/-! ## eda.make_figures and eda.safe_savefig -/

/-- The guard of the risk-by-season figure in eda.make_figures. -/
def riskBySeasonGuard (d1 : Table) : Bool :=
  hasCol d1 "season" && hasCol d1 "risk"

/-- eda.safe_savefig with explicit exception flow.  The Python body runs
`os.makedirs`, `plt.tight_layout()`, `plt.savefig(path, dpi=150)` and
`plt.close()` in order, with no try/finally.  The first argument says
whether `plt.savefig` raises; the second whether a figure is open on entry.
The result is the propagated exception (if any) and whether a figure is
still open when the call ends. -/
def safe_savefig (savefigRaises : Bool) (figOpen : Bool) :
    Option String × Bool :=
  if savefigRaises then
    (some "savefig raised", figOpen)
  else
    (none, false)

/-! ## Basic lemmas -/

theorem truncInt_intCast (m : ℤ) : truncInt (m : ℚ) = m := by
  unfold truncInt
  simp [Rat.intCast_num, Rat.intCast_den]

theorem dry_wet_eval (q : ℚ) :
    dry_wet_from_month (some q) =
      if truncInt q ∈ ([11, 12, 1, 2, 3, 4] : List ℤ) then some "Wet"
      else if truncInt q ∈ ([5, 6, 7, 8, 9, 10] : List ℤ) then some "Dry"
      else none := rfl

theorem getCol_setCol_self (t : Table) (n : String) (vs : List Val) :
    getCol (setCol t n vs) n = vs := by
  induction t with
  | nil => simp [setCol, getCol]
  | cons p t ih =>
      by_cases h : p.1 = n
      · simp [setCol, getCol, h]
      · simp [setCol, getCol, h, ih]

theorem getCol_setCol_ne (t : Table) (n m : String) (vs : List Val)
    (h : m ≠ n) : getCol (setCol t n vs) m = getCol t m := by
  have h' : n ≠ m := Ne.symm h
  induction t with
  | nil => simp [setCol, getCol, h']
  | cons p t ih =>
      by_cases hp : p.1 = n
      · rw [show setCol (p :: t) n vs = (p.1, vs) :: t by simp [setCol, hp]]
        have hm : p.1 ≠ m := by rw [hp]; exact h'
        simp [getCol, hm]
      · rw [show setCol (p :: t) n vs = p :: setCol t n vs by
          simp [setCol, hp]]
        by_cases hm : p.1 = m
        · simp [getCol, hm]
        · simp [getCol, hm, ih]

theorem colNames_setCol_of_hasCol (t : Table) (n : String) (vs : List Val)
    (h : hasCol t n = true) : colNames (setCol t n vs) = colNames t := by
  induction t with
  | nil => simp [hasCol] at h
  | cons p t ih =>
      by_cases hp : p.1 = n
      · simp [setCol, colNames, hp]
      · have h' : hasCol t n = true := by
          simpa [hasCol, hp] using h
        simp [setCol, colNames, hp] at ih ⊢
        exact ih h'

theorem hasCol_eq_names (t : Table) (c : String) :
    hasCol t c = (colNames t).any (fun m => m == c) := by
  induction t with
  | nil => simp [hasCol, colNames]
  | cons p t ih =>
      simp only [hasCol, colNames, List.any_cons, List.map_cons] at ih ⊢
      rw [ih]

theorem getCol_of_not_hasCol (t : Table) (c : String)
    (h : hasCol t c = false) : getCol t c = [] := by
  induction t with
  | nil => simp [getCol]
  | cons p t ih =>
      rw [hasCol] at h
      simp only [List.any_cons, Bool.or_eq_false_iff, beq_eq_false_iff_ne] at h
      have h2 : hasCol t c = false := by
        rw [hasCol]
        simpa [beq_eq_false_iff_ne] using h.2
      simp [getCol, h.1, ih h2]

theorem colNames_coerce (t : Table) (cols : List String) :
    colNames (coerce_numeric t cols) = colNames t := by
  induction cols generalizing t with
  | nil => simp [coerce_numeric]
  | cons n rest ih =>
      show colNames (coerce_numeric
        (if hasCol t n then setCol t n ((getCol t n).map coerceCell) else t)
        rest) = colNames t
      by_cases h : hasCol t n
      · simp only [h, if_true]
        rw [ih, colNames_setCol_of_hasCol t n _ h]
      · simp only [h, if_false]
        exact ih t

theorem hasCol_coerce (t : Table) (cols : List String) (c : String) :
    hasCol (coerce_numeric t cols) c = hasCol t c := by
  rw [hasCol_eq_names, hasCol_eq_names, colNames_coerce]

theorem getCol_coerce_not_mem (t : Table) (cols : List String) (c : String)
    (h : c ∉ cols) : getCol (coerce_numeric t cols) c = getCol t c := by
  induction cols generalizing t with
  | nil => simp [coerce_numeric]
  | cons n rest ih =>
      have hc : c ≠ n := fun e => h (e ▸ List.mem_cons_self n rest)
      have hr : c ∉ rest := fun e => h (List.mem_cons_of_mem n e)
      show getCol (coerce_numeric
        (if hasCol t n then setCol t n ((getCol t n).map coerceCell) else t)
        rest) c = getCol t c
      by_cases hn : hasCol t n
      · simp only [hn, if_true]
        rw [ih _ hr, getCol_setCol_ne t n c _ hc]
      · simp only [hn, if_false]
        exact ih t hr

theorem coerceCell_isNumOrNa (v : Val) : (coerceCell v).isNumOrNa = true := by
  cases v with
  | na => rfl
  | num q => rfl
  | str s =>
      show (match parseNumeric (pyStrip s) with
        | some q => Val.num q
        | none => Val.na).isNumOrNa = true
      cases parseNumeric (pyStrip s) <;> rfl

theorem coerce_range (cols : List String) (t : Table) (c : String)
    (hc : c ∈ cols) :
    ∀ v ∈ getCol (coerce_numeric t cols) c, v.isNumOrNa = true := by
  induction cols generalizing t with
  | nil => cases hc
  | cons n rest ih =>
      show ∀ v ∈ getCol (coerce_numeric
        (if hasCol t n then setCol t n ((getCol t n).map coerceCell) else t)
        rest) c, v.isNumOrNa = true
      by_cases hr : c ∈ rest
      · intro v hv
        exact ih _ hr v hv
      · have hcn : c = n := by
          rcases List.mem_cons.1 hc with h | h
          · exact h
          · exact absurd h hr
        subst hcn
        intro v hv
        rw [getCol_coerce_not_mem _ _ _ hr] at hv
        by_cases hn : hasCol t c
        · simp only [hn, if_true, getCol_setCol_self] at hv
          rcases List.mem_map.1 hv with ⟨w, _, rfl⟩
          exact coerceCell_isNumOrNa w
        · have hb : hasCol t c = false := by simpa using hn
          rw [hb] at hv
          simp only [Bool.false_eq_true, if_false] at hv
          rw [getCol_of_not_hasCol t c hb] at hv
          cases hv

/-! ## Claim theorems -/

/-- C1: for an integer month, the season is "Wet" on {11,12,1,2,3,4},
"Dry" on {5,...,10}, and missing otherwise (hence for any month outside
1–12); a missing month gives a missing season. -/
theorem claim_C1_dry_wet_from_month :
    (∀ m : ℤ, dry_wet_from_month (some (m : ℚ)) =
      if m ∈ ([11, 12, 1, 2, 3, 4] : List ℤ) then some "Wet"
      else if m ∈ ([5, 6, 7, 8, 9, 10] : List ℤ) then some "Dry"
      else none) ∧
    dry_wet_from_month none = none := by
  constructor
  · intro m
    rw [dry_wet_eval, truncInt_intCast]
  · rfl

theorem truncInt_div_49_10 : truncInt (49 / 10 : ℚ) = 4 := by
  unfold truncInt
  rw [show ((49 : ℚ) / 10).num = 49 by norm_num,
    show ((49 : ℚ) / 10).den = 10 by norm_num]
  decide

theorem truncInt_div_21_2 : truncInt (21 / 2 : ℚ) = 10 := by
  unfold truncInt
  rw [show ((21 : ℚ) / 2).num = 21 by norm_num,
    show ((21 : ℚ) / 2).den = 2 by norm_num]
  decide

theorem truncInt_div_1_2 : truncInt (1 / 2 : ℚ) = 0 := by
  unfold truncInt
  rw [show ((1 : ℚ) / 2).num = 1 by norm_num,
    show ((1 : ℚ) / 2).den = 2 by norm_num]
  decide

/-- C10: season derivation truncates a fractional month toward zero before
classifying, so 4.9 maps as month 4 ("Wet"), 10.5 as month 10 ("Dry") and
0.5 as month 0 (missing). -/
theorem claim_C10_truncation :
    (∀ q : ℚ, dry_wet_from_month (some q) =
      dry_wet_from_month (some ((truncInt q : ℤ) : ℚ))) ∧
    dry_wet_from_month (some (49 / 10)) = some "Wet" ∧
    dry_wet_from_month (some (21 / 2)) = some "Dry" ∧
    dry_wet_from_month (some (1 / 2)) = none := by
  refine ⟨?_, ?_, ?_, ?_⟩
  · intro q
    rw [dry_wet_eval, dry_wet_eval, truncInt_intCast]
  · rw [dry_wet_eval, truncInt_div_49_10]
    decide
  · rw [dry_wet_eval, truncInt_div_21_2]
    decide
  · rw [dry_wet_eval, truncInt_div_1_2]
    decide

/-- C3: coerce_numeric turns every cell of each listed present column into
a number or the missing marker, skips columns absent from the table (it is
a total function, so no input raises), leaves the column names unchanged,
and maps the column ["1", "abc", "3.5", ""] to [1.0, missing, 3.5, missing]. -/
theorem claim_C3_coerce_numeric :
    (∀ (t : Table) (cols : List String) (c : String), c ∈ cols →
      ∀ v ∈ getCol (coerce_numeric t cols) c, v.isNumOrNa = true) ∧
    (∀ (t : Table) (cols : List String) (c : String), hasCol t c = false →
      hasCol (coerce_numeric t cols) c = false ∧
        getCol (coerce_numeric t cols) c = []) ∧
    (∀ (t : Table) (cols : List String),
      colNames (coerce_numeric t cols) = colNames t) ∧
    coerce_numeric [("v", [.str "1", .str "abc", .str "3.5", .str ""])] ["v"]
      = [("v", [.num 1, .na, .num (7 / 2), .na])] := by
  refine ⟨fun t cols c hc => coerce_range cols t c hc, ?_, ?_, ?_⟩
  · intro t cols c h
    have h1 : hasCol (coerce_numeric t cols) c = false := by
      rw [hasCol_coerce]
      exact h
    exact ⟨h1, getCol_of_not_hasCol _ _ h1⟩
  · exact colNames_coerce
  · have h : (7 / 2 : ℚ) = mkRat 35 10 := by
      rw [Rat.mkRat_eq_div]
      norm_num
    rw [h]
    decide

theorem claim_C3_coerce_numeric_witness :
    ("v" ∈ ["v"] ∧ (Val.num 1).isNumOrNa = true) ∧
    (hasCol ([("v", [Val.str "1"])] : Table) "w" = false ∧
      getCol (coerce_numeric [("v", [Val.str "1"])] ["v"]) "w" = []) := by
  constructor
  · exact ⟨by decide, claim_C3_coerce_numeric.1 [("v", [Val.str "1"])] ["v"]
      "v" (by decide) (Val.num 1) (by decide)⟩
  · exact ⟨by decide, (claim_C3_coerce_numeric.2.1 [("v", [Val.str "1"])]
      ["v"] "w" (by decide)).2⟩

theorem getCol_dropCol_ne (t : Table) (n m : String) (h : m ≠ n) :
    getCol (dropCol t n) m = getCol t m := by
  induction t with
  | nil => rfl
  | cons p t ih =>
      by_cases hp : p.1 = n
      · have hm : p.1 ≠ m := by rw [hp]; exact Ne.symm h
        have e1 : dropCol (p :: t) n = dropCol t n := by simp [dropCol, hp]
        rw [e1, ih]
        simp only [getCol, if_neg hm]
      · have e1 : dropCol (p :: t) n = p :: dropCol t n := by
          simp [dropCol, hp]
        rw [e1]
        by_cases hm : p.1 = m
        · simp only [getCol, if_pos hm]
        · simp only [getCol, if_neg hm, ih]

theorem hasCol_dropCol_self (t : Table) (n : String) :
    hasCol (dropCol t n) n = false := by
  induction t with
  | nil => simp [dropCol, hasCol]
  | cons p t ih =>
      by_cases hp : p.1 = n
      · simp [dropCol, hasCol, hp] at ih ⊢
      · simp [dropCol, hasCol, hp] at ih ⊢

theorem hasCol_setCol_self (t : Table) (n : String) (vs : List Val) :
    hasCol (setCol t n vs) n = true := by
  induction t with
  | nil => simp [setCol, hasCol]
  | cons p t ih =>
      by_cases hp : p.1 = n
      · simp [setCol, hasCol, hp]
      · simpa [setCol, hasCol, hp] using ih

theorem hasCol_setCol_ne (t : Table) (n m : String) (vs : List Val)
    (h : m ≠ n) : hasCol (setCol t n vs) m = hasCol t m := by
  have h' : n ≠ m := fun e => h (Eq.symm e)
  induction t with
  | nil => simp [setCol, hasCol, h']
  | cons p t ih =>
      by_cases hp : p.1 = n
      · have e1 : setCol (p :: t) n vs = (p.1, vs) :: t := by
          simp [setCol, hp]
        rw [e1]
        rfl
      · have e1 : setCol (p :: t) n vs = p :: setCol t n vs := by
          simp [setCol, hp]
        rw [e1]
        show (p :: setCol t n vs).any (fun x => x.1 == m)
          = (p :: t).any (fun x => x.1 == m)
        simp only [List.any_cons]
        rw [show ((setCol t n vs).any fun x => x.1 == m)
          = (t.any fun x => x.1 == m) from ih]

theorem getCol_finalizeSeason (df : Table) :
    getCol (finalizeSeason df) "season" = getCol df "season_dw" := by
  unfold finalizeSeason
  rw [getCol_dropCol_ne _ _ _ (by decide), getCol_setCol_self]

theorem seasonMap_range (s : String) :
    seasonMap s = Val.na ∨ seasonMap s = Val.str "Dry" ∨
      seasonMap s = Val.str "Wet" := by
  unfold seasonMap seasonDict
  by_cases h0 : s = "0"
  · simp [List.lookup, h0]
  · have e0 : (s == "0") = false := beq_eq_false_iff_ne.mpr h0
    by_cases h1 : s = "1"
    · simp [List.lookup, h1]
    · have e1 : (s == "1") = false := beq_eq_false_iff_ne.mpr h1
      by_cases h2 : s = "dry"
      · simp [List.lookup, h2]
      · have e2 : (s == "dry") = false := beq_eq_false_iff_ne.mpr h2
        by_cases h3 : s = "wet"
        · simp [List.lookup, h3]
        · have e3 : (s == "wet") = false := beq_eq_false_iff_ne.mpr h3
          simp [List.lookup, e0, e1, e2, e3]

theorem dry_wet_range (m : Option ℚ) :
    dry_wet_from_month m = none ∨ dry_wet_from_month m = some "Wet" ∨
      dry_wet_from_month m = some "Dry" := by
  cases m with
  | none => exact Or.inl rfl
  | some q =>
      rw [dry_wet_eval]
      by_cases h1 : truncInt q ∈ ([11, 12, 1, 2, 3, 4] : List ℤ)
      · simp [h1]
      · by_cases h2 : truncInt q ∈ ([5, 6, 7, 8, 9, 10] : List ℤ)
        · simp [h1, h2]
        · simp [h1, h2]

/-- A predicate holds on every element of the `where`-combination if it
holds on both input lists. -/
theorem zipChoose_range (P : Val → Prop) :
    ∀ (dw fb : List Val), (∀ v ∈ dw, P v) → (∀ v ∈ fb, P v) →
      ∀ v ∈ List.zipWith (fun d f => if d.isNa then f else d) dw fb, P v := by
  intro dw
  induction dw with
  | nil => intro fb _ _ v hv; cases hv
  | cons d dw ih =>
      intro fb hd hf v hv
      cases fb with
      | nil => cases hv
      | cons f fb =>
          rcases List.mem_cons.1 hv with rfl | hv2
          · by_cases hna : d.isNa
            · simpa [hna] using hf f (List.mem_cons_self f fb)
            · simpa [hna] using hd d (List.mem_cons_self d dw)
          · exact ih fb (fun w hw => hd w (List.mem_cons_of_mem _ hw))
              (fun w hw => hf w (List.mem_cons_of_mem _ hw)) v hv2

/-- Every cell of `season_dw` after the season step is Dry, Wet or missing. -/
theorem seasonStep_range (df : Table) :
    ∀ v ∈ getCol (seasonStep df) "season_dw",
      v = Val.na ∨ v = Val.str "Dry" ∨ v = Val.str "Wet" := by
  unfold seasonStep
  by_cases h : hasCol df "season"
  · simp only [h, if_true, getCol_setCol_self]
    intro v hv
    rcases List.mem_map.1 hv with ⟨w, _, rfl⟩
    exact seasonMap_range _
  · simp only [h, Bool.false_eq_true, if_false, getCol_setCol_self]
    intro v hv
    rw [List.eq_of_mem_replicate hv]
    exact Or.inl rfl

/-- Every cell of `season_dw` after the month step is Dry, Wet or missing. -/
theorem monthStep_range (df : Table)
    (h : ∀ v ∈ getCol df "season_dw",
      v = Val.na ∨ v = Val.str "Dry" ∨ v = Val.str "Wet") :
    ∀ v ∈ getCol (monthStep df) "season_dw",
      v = Val.na ∨ v = Val.str "Dry" ∨ v = Val.str "Wet" := by
  unfold monthStep
  by_cases hm : hasCol df "month"
  · simp only [hm, if_true, getCol_setCol_self]
    apply zipChoose_range
    · intro v hv
      rcases List.mem_map.1 hv with ⟨w, _, rfl⟩
      rcases dry_wet_range w.toNum? with hd | hd | hd <;>
        simp [optToVal, hd]
    · exact h
  · simp only [hm, Bool.false_eq_true, if_false]
    exact h

/-- C9: after standardise_dataset1 the season column holds only Dry, Wet or
missing (never raw month numbers or other encodings), and the temporary
`season_dw` column is gone. -/
theorem claim_C9_season_invariant (df : Table) :
    (∀ v ∈ getCol (standardise_dataset1 df) "season",
      v = Val.na ∨ v = Val.str "Dry" ∨ v = Val.str "Wet") ∧
    hasCol (standardise_dataset1 df) "season_dw" = false := by
  constructor
  · rw [standardise_dataset1, getCol_finalizeSeason]
    exact monthStep_range _ (seasonStep_range _)
  · rw [standardise_dataset1, finalizeSeason]
    exact hasCol_dropCol_self _ _

theorem claim_C9_season_invariant_witness :
    Val.str "Wet" ∈ getCol
      (standardise_dataset1 [("season", [Val.str "dry", Val.str "WET "])])
      "season" ∧
    (Val.str "Wet" = Val.na ∨ Val.str "Wet" = Val.str "Dry" ∨
      Val.str "Wet" = Val.str "Wet") := by
  refine ⟨by decide, ?_⟩
  exact (claim_C9_season_invariant
    [("season", [Val.str "dry", Val.str "WET "])]).1 (Val.str "Wet")
    (by decide)

/-- C2: in standardise_dataset1, wherever the month-derived value is
non-missing it takes precedence over the season-column-derived value, with
fallback to the latter otherwise; in particular season text "dry" with
month 12 ends as "Wet". -/
theorem claim_C2_month_precedence :
    (∀ df : Table, hasCol df "season" = true → hasCol df "month" = true →
      getCol (standardise_dataset1 df) "season" =
        List.zipWith (fun d f => if d.isNa then f else d)
          (monthDerived df) (seasonColDerived df)) ∧
    getCol (standardise_dataset1
      [("season", [Val.str "dry"]), ("month", [Val.num 12])]) "season"
      = [Val.str "Wet"] := by
  constructor
  · intro df h1 h2
    rw [standardise_dataset1, getCol_finalizeSeason]
    have hs1 : hasCol (coerce_numeric df d1CoerceCols) "season" = true := by
      rw [hasCol_coerce]
      exact h1
    rw [seasonStep, if_pos hs1]
    have hm2 : hasCol
        (setCol (coerce_numeric df d1CoerceCols) "season_dw"
          ((getCol (coerce_numeric df d1CoerceCols) "season").map
            (fun v => seasonMap (pyStrip (pyLower (valToStr v))))))
        "month" = true := by
      rw [hasCol_setCol_ne _ _ _ _ (by decide), hasCol_coerce]
      exact h2
    rw [monthStep, if_pos hm2, getCol_setCol_self,
      getCol_setCol_ne _ _ _ _ (by decide), getCol_setCol_self,
      getCol_coerce_not_mem df d1CoerceCols "season" (by decide)]
    rfl
  · decide

theorem claim_C2_month_precedence_witness :
    (hasCol ([("season", [Val.str "dry"]), ("month", [Val.num 12])] : Table)
        "season" = true ∧
      hasCol ([("season", [Val.str "dry"]), ("month", [Val.num 12])] : Table)
        "month" = true) ∧
    getCol (standardise_dataset1
        [("season", [Val.str "dry"]), ("month", [Val.num 12])]) "season"
      = List.zipWith (fun d f => if d.isNa then f else d)
          (monthDerived [("season", [Val.str "dry"]), ("month", [Val.num 12])])
          (seasonColDerived
            [("season", [Val.str "dry"]), ("month", [Val.num 12])]) :=
  ⟨⟨by decide, by decide⟩,
    claim_C2_month_precedence.1 _ (by decide) (by decide)⟩

/-- C7: on a Dataset A with neither a month nor a season column (here: one
row with only a risk column), standardisation leaves the season value
missing for every row — but the risk-by-season figure guard nevertheless
passes, because standardise_dataset1 always materialises a "season" column,
and the grouped plot data is then empty (pandas groupby drops missing
keys), so the plot block is entered on entirely-empty data rather than
being skipped. -/
theorem claim_C7_no_season_no_month :
    getCol (standardise_dataset1 [("risk", [Val.num 0])]) "season"
      = [Val.na] ∧
    riskBySeasonGuard (standardise_dataset1 [("risk", [Val.num 0])]) = true ∧
    groupKeys (getCol (standardise_dataset1 [("risk", [Val.num 0])]) "season")
      = [] := by
  refine ⟨by decide, by decide, by decide⟩

/-- C5: the chi-square entry "risk_vs_reward_chi2" appears among the test
results exactly when both the risk and reward columns exist in Dataset A —
independent of row count — and its absence is silent (the key is simply not
in the list, and testKeys is total, so no error is raised). -/
theorem claim_C5_chi2_inclusion :
    ∀ d1 d2 : Table,
      ("risk_vs_reward_chi2" ∈ testKeys d1 d2) ↔
        (hasCol d1 "risk" = true ∧ hasCol d1 "reward" = true) := by
  intro d1 d2
  unfold testKeys
  split_ifs with h1 h2 h3 h4 h5 <;>
    simp_all

/-- C6: the Mann–Whitney entry "sec_after_rat_by_risk_mw" appears among the
test results exactly when both its columns exist in Dataset A and both
risk subgroups keep strictly more than 3 non-missing observations after
dropping missing values; in the concrete table below the risk==0 subgroup
has exactly 3 observations, so the entry is omitted. -/
theorem claim_C6_mann_whitney_inclusion :
    (∀ d1 d2 : Table,
      ("sec_after_rat_by_risk_mw" ∈ testKeys d1 d2) ↔
        (hasCol d1 "risk" = true ∧
          hasCol d1 "seconds_after_rat_arrival" = true ∧
          3 < (mwGroupA d1).length ∧ 3 < (mwGroupB d1).length)) ∧
    (mwGroupA
      [("risk", [Val.num 0, Val.num 0, Val.num 0, Val.num 1, Val.num 1,
        Val.num 1, Val.num 1]),
       ("seconds_after_rat_arrival", [Val.num 1, Val.num 2, Val.num 3,
        Val.num 4, Val.num 5, Val.num 6, Val.num 7])]).length = 3 ∧
    "sec_after_rat_by_risk_mw" ∉ testKeys
      [("risk", [Val.num 0, Val.num 0, Val.num 0, Val.num 1, Val.num 1,
        Val.num 1, Val.num 1]),
       ("seconds_after_rat_arrival", [Val.num 1, Val.num 2, Val.num 3,
        Val.num 4, Val.num 5, Val.num 6, Val.num 7])] [] := by
  refine ⟨?_, by decide, by decide⟩
  intro d1 d2
  unfold testKeys
  split_ifs with h1 h2 h3 h4 h5 <;>
    simp_all

theorem fillna_not_na (q : ℚ) (xs : List Val) :
    ∀ v ∈ fillna q xs, v.isNa = false := by
  intro v hv
  rcases List.mem_map.1 hv with ⟨w, _, rfl⟩
  cases hb : w.isNa
  · simp [hb]
  · rfl

theorem validPairs_of_no_na (a b : List Val)
    (ha : ∀ v ∈ a, v.isNa = false) (hb : ∀ v ∈ b, v.isNa = false) :
    validPairs a b = a.zip b := by
  unfold validPairs
  apply List.filter_eq_self.mpr
  intro p hp
  obtain ⟨x, y⟩ := p
  have hxy := List.of_mem_zip hp
  simp [ha x hxy.1, hb y hxy.2]

/-- Summing the contingency cells over any category sets that cover the
kept pairs counts every kept pair exactly once. -/
theorem sum_countP_pairs (R C : Finset Val) :
    ∀ P : List (Val × Val), (∀ p ∈ P, p.1 ∈ R ∧ p.2 ∈ C) →
      (∑ r ∈ R, ∑ c ∈ C, P.countP (fun p => p.1 == r && p.2 == c))
        = P.length := by
  intro P
  induction P with
  | nil => intro _; simp
  | cons p P ih =>
      intro h
      have hp := h p (List.mem_cons_self p P)
      have h' : ∀ q ∈ P, q.1 ∈ R ∧ q.2 ∈ C :=
        fun q hq => h q (List.mem_cons_of_mem _ hq)
      simp only [List.countP_cons, Bool.and_eq_true, beq_iff_eq,
        decide_eq_true_eq]
      rw [Finset.sum_congr rfl (fun r _ => Finset.sum_add_distrib),
        Finset.sum_add_distrib]
      have inner : ∀ r : Val,
          (∑ c ∈ C, if p.1 = r ∧ p.2 = c then 1 else 0)
            = if p.1 = r then 1 else 0 := by
        intro r
        by_cases hr : p.1 = r
        · simp only [hr, true_and, if_pos rfl]
          rw [Finset.sum_ite_eq C p.2 (fun _ => (1 : ℕ))]
          simp [hp.2]
        · simp [hr]
      rw [Finset.sum_congr rfl (fun r _ => inner r),
        Finset.sum_ite_eq R p.1 (fun _ => (1 : ℕ))]
      have hih := ih h'
      simp only [Bool.and_eq_true, beq_iff_eq, decide_eq_true_eq] at hih
      rw [hih]
      simp [hp.1, List.length_cons]

/-- C4: before the contingency table is built, run_all fills every missing
value of the two chi-square input series with the sentinel -1
(`fillna(-1)`), leaving non-missing values untouched, so missingness is its
own category and no observation is dropped: the filled series contain no
missing values, every row pair is kept, and the grand total of the
contingency table (the sum of its row/column totals) equals the number of
rows of Dataset A.  Whenever -1 does not occur as a real value of the
series (risk and reward are 0/1 indicators), the sentinel is distinct from
every real category. -/
theorem claim_C4_chi_square_sentinel :
    ∀ a b : List Val, a.length = b.length →
      (∀ v ∈ fillna (-1) a, v.isNa = false) ∧
      (∀ (i : ℕ) (v : Val), a[i]? = some v →
        (fillna (-1) a)[i]? = some (if v.isNa then Val.num (-1) else v)) ∧
      (Val.num (-1) ∉ a → ∀ v ∈ a, v.isNa = false → v ≠ Val.num (-1)) ∧
      (validPairs (fillna (-1) a) (fillna (-1) b)).length = a.length ∧
      ctGrandTotal (fillna (-1) a) (fillna (-1) b) = a.length := by
  intro a b hlen
  have hkeep : (validPairs (fillna (-1) a) (fillna (-1) b)).length
      = a.length := by
    rw [validPairs_of_no_na _ _ (fillna_not_na _ _) (fillna_not_na _ _),
      List.length_zip]
    unfold fillna
    rw [List.length_map, List.length_map, hlen, Nat.min_self]
  refine ⟨fillna_not_na _ _, ?_, ?_, hkeep, ?_⟩
  · intro i v hv
    unfold fillna
    rw [List.getElem?_map, hv]
    rfl
  · intro hnot v hva _ e
    exact hnot (e ▸ hva)
  · have cover : ∀ p ∈ validPairs (fillna (-1) a) (fillna (-1) b),
        p.1 ∈ rowCats (fillna (-1) a) (fillna (-1) b) ∧
          p.2 ∈ colCats (fillna (-1) a) (fillna (-1) b) := by
      intro p hp
      exact ⟨List.mem_toFinset.mpr (List.mem_map_of_mem Prod.fst hp),
        List.mem_toFinset.mpr (List.mem_map_of_mem Prod.snd hp)⟩
    unfold ctGrandTotal ctCell
    rw [sum_countP_pairs _ _ _ cover]
    exact hkeep

theorem claim_C4_chi_square_sentinel_witness :
    ([Val.na, Val.num 0] : List Val).length
        = ([Val.num 1, Val.na] : List Val).length ∧
    ctGrandTotal (fillna (-1) [Val.na, Val.num 0])
      (fillna (-1) [Val.num 1, Val.na]) = 2 := by
  constructor
  · rfl
  · exact (claim_C4_chi_square_sentinel [Val.na, Val.num 0]
      [Val.num 1, Val.na] rfl).2.2.2.2

/-- C8 counterexample: safe_savefig has no try/finally, so when
plt.savefig raises while a figure is open, the exception propagates and
plt.close() is never reached — the figure is still open afterwards, so the
release is not unconditional as the claim states. -/
theorem claim_C8_counterexample :
    (safe_savefig true true).1 = some "savefig raised" ∧
    (safe_savefig true true).2 = true :=
  ⟨rfl, rfl⟩

/-- C8 amended: safe_savefig closes the current figure after a successful
save (regardless of the prior figure state) and raises nothing; when the
save raises, the exception propagates and the figure is not closed. -/
theorem claim_C8_amended :
    (∀ figOpen : Bool, safe_savefig false figOpen = (none, false)) ∧
    (∀ figOpen : Bool, safe_savefig true figOpen = (some "savefig raised",
      figOpen)) := by
  constructor
  · intro figOpen
    rfl
  · intro figOpen
    rfl
